import Mathlib

/-!
Verification of the shard-partitioning / availability / routing engine of a
CDN control plane, together with its integrity and signing primitives.

The development shallowly embeds the TypeScript source: the `FileList` class
(sharded file catalog, cluster eligibility, random routing) and the
`Utilities` class (URL signing, file hashing, random selection).  Machine
integers are modelled as `Nat` with explicit reductions modulo `2^32` where
the JavaScript code relies on 32-bit semantics; `Math.random()`-driven
choices are modelled by an explicit stream of natural numbers reduced modulo
the relevant length; the file system is modelled as a map from paths to an
optional (content, mtime) record, `none` meaning any I/O operation fails;
fallible operations return `Except`/`Option`.
-/

set_option maxRecDepth 1000000

/-! ## CRC-32 (ISO-HDLC) over UTF-8 bytes — the `crc-32` package's `crc32.str` -/

/-- One bit-step of the reflected CRC-32 with polynomial `0xEDB88320`. -/
def crc32Bit (c : Nat) : Nat :=
  if c % 2 = 1 then 0xEDB88320 ^^^ (c / 2) else c / 2

/-- One byte-step of CRC-32: xor the byte into the low bits, then eight bit-steps. -/
def crc32Byte (crc b : Nat) : Nat :=
  crc32Bit (crc32Bit (crc32Bit (crc32Bit (crc32Bit (crc32Bit (crc32Bit (crc32Bit (crc ^^^ b))))))))

/-- CRC-32 (ISO-HDLC) of a byte sequence, as an unsigned 32-bit value. -/
def crc32 (bytes : List Nat) : Nat :=
  (bytes.foldl crc32Byte 0xFFFFFFFF) ^^^ 0xFFFFFFFF

/-- UTF-8 encoding of one Unicode code point (`crc32.str` encodes on the fly). -/
def utf8Char (c : Char) : List Nat :=
  let n := c.toNat
  if n < 0x80 then [n]
  else if n < 0x800 then [0xC0 + n / 64, 0x80 + n % 64]
  else if n < 0x10000 then [0xE0 + n / 4096, 0x80 + n / 64 % 64, 0x80 + n % 64]
  else [0xF0 + n / 262144, 0x80 + n / 4096 % 64, 0x80 + n / 64 % 64, 0x80 + n % 64]

/-- UTF-8 bytes of a string. -/
def strBytes (s : String) : List Nat :=
  s.data.foldr (fun c acc => utf8Char c ++ acc) []

/-- The signed 32-bit integer the `crc-32` package returns (its internal ops are `|0`). -/
def crc32Signed (bytes : List Nat) : Int :=
  let c := crc32 bytes
  if c < 2147483648 then (c : Int) else (c : Int) - 4294967296

/-- Embeds `FileList.getShardIndex`: `Math.abs(crc32.str(value)) % totalShards`. -/
def getShardIndex (value : String) (totalShards : Nat) : Nat :=
  let crcValue := (crc32Signed (strBytes value)).natAbs
  crcValue % totalShards

/-! ## SHA-1 and SHA-256 (node's `crypto.createHash`) -/

def mask32 : Nat := 4294967296

/-- Left-rotation of a 32-bit word. -/
def rotl (n x : Nat) : Nat := ((x <<< n) ||| (x >>> (32 - n))) % mask32

/-- Right-rotation of a 32-bit word. -/
def rotr (n x : Nat) : Nat := ((x >>> n) ||| (x <<< (32 - n))) % mask32

/-- Big-endian 8-byte encoding. -/
def be64 (n : Nat) : List Nat :=
  [n / 2 ^ 56 % 256, n / 2 ^ 48 % 256, n / 2 ^ 40 % 256, n / 2 ^ 32 % 256,
   n / 2 ^ 24 % 256, n / 2 ^ 16 % 256, n / 2 ^ 8 % 256, n % 256]

/-- Big-endian 4-byte encoding of a 32-bit word. -/
def be32 (n : Nat) : List Nat := [n / 2 ^ 24 % 256, n / 2 ^ 16 % 256, n / 2 ^ 8 % 256, n % 256]

/-- Merkle–Damgård padding shared by SHA-1 and SHA-256. -/
def shaPad (msg : List Nat) : List Nat :=
  msg ++ [0x80] ++ List.replicate ((119 - msg.length % 64) % 64) 0 ++ be64 (msg.length * 8)

/-- Split a list into chunks of `n` bytes (fuel-driven structural recursion). -/
def chunksAux (n : Nat) : Nat → List Nat → List (List Nat)
  | 0, _ => []
  | _, [] => []
  | fuel + 1, l => l.take n :: chunksAux n fuel (l.drop n)

def chunks (n : Nat) (l : List Nat) : List (List Nat) := chunksAux n l.length l

/-- Big-endian 32-bit words from bytes. -/
def toWords (l : List Nat) : List Nat :=
  (chunks 4 l).map
    (fun c => c.getD 0 0 * 2 ^ 24 + c.getD 1 0 * 2 ^ 16 + c.getD 2 0 * 2 ^ 8 + c.getD 3 0)

/-- Extend the 16-word schedule to 80 words for SHA-1. -/
def sha1Extend : Nat → List Nat → List Nat
  | 0, w => w
  | k + 1, w =>
      let t := rotl 1 (w.getD (w.length - 3) 0 ^^^ w.getD (w.length - 8) 0 ^^^
                       w.getD (w.length - 14) 0 ^^^ w.getD (w.length - 16) 0)
      sha1Extend k (w ++ [t])

def sha1F (t b c d : Nat) : Nat :=
  if t < 20 then (b &&& c) ||| ((b ^^^ 0xFFFFFFFF) &&& d)
  else if t < 40 then b ^^^ c ^^^ d
  else if t < 60 then (b &&& c) ||| (b &&& d) ||| (c &&& d)
  else b ^^^ c ^^^ d

def sha1K (t : Nat) : Nat :=
  if t < 20 then 0x5A827999 else if t < 40 then 0x6ED9EBA1
  else if t < 60 then 0x8F1BBCDC else 0xCA62C1D6

def sha1Rounds (w : List Nat) (h : Nat × Nat × Nat × Nat × Nat) : Nat × Nat × Nat × Nat × Nat :=
  (List.range 80).foldl
    (fun st t =>
      let (a, b, c, d, e) := st
      let temp := (rotl 5 a + sha1F t b c d + e + sha1K t + w.getD t 0) % mask32
      (temp, a, rotl 30 b, c, d)) h

def sha1Block (h : Nat × Nat × Nat × Nat × Nat) (block : List Nat) :
    Nat × Nat × Nat × Nat × Nat :=
  let w := sha1Extend 64 (toWords block)
  let (a, b, c, d, e) := sha1Rounds w h
  let (h0, h1, h2, h3, h4) := h
  ((h0 + a) % mask32, (h1 + b) % mask32, (h2 + c) % mask32, (h3 + d) % mask32, (h4 + e) % mask32)

/-- SHA-1 digest (20 bytes) of a byte sequence. -/
def sha1 (msg : List Nat) : List Nat :=
  let (h0, h1, h2, h3, h4) :=
    (chunks 64 (shaPad msg)).foldl sha1Block
      (0x67452301, 0xEFCDAB89, 0x98BADCFE, 0x10325476, 0xC3D2E1F0)
  be32 h0 ++ be32 h1 ++ be32 h2 ++ be32 h3 ++ be32 h4

/-- The 64 SHA-256 round constants (fractional parts of cube roots of the
    first 64 primes), written in decimal. -/
def sha256K : List Nat :=
  [1116352408, 1899447441, 3049323471, 3921009573, 961987163, 1508970993,
   2453635748, 2870763221, 3624381080, 310598401, 607225278, 1426881987,
   1925078388, 2162078206, 2614888103, 3248222580, 3835390401, 4022224774,
   264347078, 604807628, 770255983, 1249150122, 1555081692, 1996064986,
   2554220882, 2821834349, 2952996808, 3210313671, 3336571891, 3584528711,
   113926993, 338241895, 666307205, 773529912, 1294757372, 1396182291,
   1695183700, 1986661051, 2177026350, 2456956037, 2730485921, 2820302411,
   3259730800, 3345764771, 3516065817, 3600352804, 4094571909, 275423344,
   430227734, 506948616, 659060556, 883997877, 958139571, 1322822218,
   1537002063, 1747873779, 1955562222, 2024104815, 2227730452, 2361852424,
   2428436474, 2756734187, 3204031479, 3329325298]

def sha256Extend : Nat → List Nat → List Nat
  | 0, w => w
  | k + 1, w =>
      let w15 := w.getD (w.length - 15) 0
      let w2 := w.getD (w.length - 2) 0
      let s0 := rotr 7 w15 ^^^ rotr 18 w15 ^^^ (w15 >>> 3)
      let s1 := rotr 17 w2 ^^^ rotr 19 w2 ^^^ (w2 >>> 10)
      sha256Extend k
        (w ++ [(w.getD (w.length - 16) 0 + s0 + w.getD (w.length - 7) 0 + s1) % mask32])

def Sha2Regs := Nat × Nat × Nat × Nat × Nat × Nat × Nat × Nat

def sha256Rounds (w : List Nat) (h : Sha2Regs) : Sha2Regs :=
  (List.range 64).foldl
    (fun st t =>
      let (a, b, c, d, e, f, g, hh) := st
      let s1 := rotr 6 e ^^^ rotr 11 e ^^^ rotr 25 e
      let ch := (e &&& f) ^^^ ((e ^^^ 0xFFFFFFFF) &&& g)
      let temp1 := (hh + s1 + ch + sha256K.getD t 0 + w.getD t 0) % mask32
      let s0 := rotr 2 a ^^^ rotr 13 a ^^^ rotr 22 a
      let maj := (a &&& b) ^^^ (a &&& c) ^^^ (b &&& c)
      let temp2 := (s0 + maj) % mask32
      ((temp1 + temp2) % mask32, a, b, c, (d + temp1) % mask32, e, f, g)) h

def sha256Block (h : Sha2Regs) (block : List Nat) : Sha2Regs :=
  let w := sha256Extend 48 (toWords block)
  let (a, b, c, d, e, f, g, hh) := sha256Rounds w h
  let (h0, h1, h2, h3, h4, h5, h6, h7) := h
  ((h0 + a) % mask32, (h1 + b) % mask32, (h2 + c) % mask32, (h3 + d) % mask32,
   (h4 + e) % mask32, (h5 + f) % mask32, (h6 + g) % mask32, (h7 + hh) % mask32)

/-- SHA-256 digest (32 bytes) of a byte sequence. -/
def sha256 (msg : List Nat) : List Nat :=
  let (h0, h1, h2, h3, h4, h5, h6, h7) :=
    (chunks 64 (shaPad msg)).foldl sha256Block
      (0x6a09e667, 0xbb67ae85, 0x3c6ef372, 0xa54ff53a, 0x510e527f, 0x9b05688c, 0x1f83d9ab,
       0x5be0cd19)
  be32 h0 ++ be32 h1 ++ be32 h2 ++ be32 h3 ++ be32 h4 ++ be32 h5 ++ be32 h6 ++ be32 h7

def hexDigit (n : Nat) : Char := if n < 10 then Char.ofNat (48 + n) else Char.ofNat (87 + n)

/-- Lowercase hex rendering of bytes — node's `digest('hex')`. -/
def bytesToHex (l : List Nat) : String :=
  String.mk (l.foldr (fun b acc => hexDigit (b / 16) :: hexDigit (b % 16) :: acc) [])

/-! ## Base64, base36 and `Utilities.getSign` -/

def b64Alphabet : List Char :=
  "ABCDEFGHIJKLMNOPQRSTUVWXYZabcdefghijklmnopqrstuvwxyz0123456789+/".data

def b64Char (n : Nat) : Char := b64Alphabet.getD n 'A'

/-- Standard base64 encoding (with '=' padding) — node's `buffer.toString('base64')`. -/
def base64Encode : List Nat → List Char
  | [] => []
  | [a] => [b64Char (a / 4), b64Char (a % 4 * 16), '=', '=']
  | [a, b] => [b64Char (a / 4), b64Char (a % 4 * 16 + b / 16), b64Char (b % 16 * 4), '=']
  | a :: b :: c :: rest =>
      b64Char (a / 4) :: b64Char (a % 4 * 16 + b / 16) :: b64Char (b % 16 * 4 + c / 64) ::
      b64Char (c % 64) :: base64Encode rest

/-- The two `replace` calls of `toUrlSafeBase64String`: '+' to '-', '/' to '_'. -/
def urlSafeChar (c : Char) : Char := if c = '+' then '-' else if c = '/' then '_' else c

/-- The `replace(/=+$/, '')` call: drop trailing '=' characters. -/
def stripTrailingEq (l : List Char) : List Char :=
  (l.reverse.dropWhile (fun c => c == '=')).reverse

/-- Embeds `Utilities.toUrlSafeBase64String`. -/
def toUrlSafeBase64String (buffer : List Nat) : String :=
  String.mk (stripTrailingEq ((base64Encode buffer).map urlSafeChar))

def base36Digit (n : Nat) : Char := if n < 10 then Char.ofNat (48 + n) else Char.ofNat (87 + n)

/-- Base-36 digits of `n`, most significant first; the first argument is fuel
    (any fuel at least `n` gives the exact digits, since `n / 36 < n`). -/
def toBase36Aux : Nat → Nat → List Char
  | 0, _ => []
  | _, 0 => []
  | fuel + 1, n + 1 => toBase36Aux fuel ((n + 1) / 36) ++ [base36Digit ((n + 1) % 36)]

/-- `Number.prototype.toString(36)` for a natural number. -/
def toBase36 (n : Nat) : String := if n = 0 then "0" else String.mk (toBase36Aux n n)

/-- Embeds `Utilities.getSign`; `now` models `Date.now()` in Unix milliseconds.
    The source's try/catch around `createHash('sha1')` can only fire when the
    algorithm is unsupported by the runtime, which is environment-, not
    data-dependent, so the embedding is total. -/
def getSign (now : Nat) (path secret : String) : String :=
  let timestamp := now + 5 * 60 * 1000
  let e := toBase36 timestamp
  let signBytes := sha1 (strBytes (secret ++ path ++ e))
  let sign := toUrlSafeBase64String signBytes
  "s=" ++ sign ++ "&e=" ++ e

/-! ## `Utilities.getFileInfoSync` over a modelled file system -/

/-- A file on disk: its bytes and its mtime in Unix milliseconds. -/
structure FSFile where
  content : List Nat
  mtimeMs : Nat

structure FileInfo where
  hash : String
  size : Nat
  lastModified : Nat
deriving DecidableEq

/-- Embeds `Utilities.getFileInfoSync`. The file system is a map from path to
    an optional (content, mtime) record; `none` makes `statSync`/`readFileSync`
    throw, which the source catches, returning the fixed sentinel. -/
def getFileInfoSync (fs : String → Option FSFile) (filePath : String) : FileInfo :=
  match fs filePath with
  | some f => { hash := bytesToHex (sha256 f.content), size := f.content.length,
                lastModified := f.mtimeMs }
  | none => { hash := "0000000000000000000000000000000000000000", size := 0, lastModified := 0 }

/-! ## The `FileList` catalog -/

/-- A catalog record (`File` entity): `url` is the optional origin URL. -/
structure File where
  path : String
  hash : String
  url : Option String
deriving DecidableEq

structure ClusterEntity where
  clusterId : String
  shards : Nat
  isOnline : Bool
  isBanned : Bool
  isProxyCluster : Bool
deriving DecidableEq

def SHARD_COUNT : Nat := 1000

/-- JavaScript truthiness of an optional string (absent and empty are falsy),
    used for `file.url` tests such as `!file.url` and `f.url || ...`. -/
def truthy : Option String → Bool
  | none => false
  | some s => !(s == "")

/-- Embeds `FileList.splitIntoShards`: start from `totalShards` empty buckets
    and push each object into bucket `getShardIndex(obj.path, totalShards)`. -/
def splitIntoShards (objects : List File) (totalShards : Nat) : List (List File) :=
  objects.foldl
    (fun shards obj =>
      let shardIndex := getShardIndex obj.path totalShards
      shards.set shardIndex (shards.getD shardIndex [] ++ [obj]))
    (List.replicate totalShards [])

/-- The `FileList` instance state: `_files`, `_clusters` and the derived `_shards`. -/
structure FileListState where
  files : List File
  clusters : List ClusterEntity
  shards : List (List File)
deriving DecidableEq

/-- Embeds `FileList.notifyUpdateShards` (the console logging has no effect on state). -/
def notifyUpdateShards (s : FileListState) : FileListState :=
  { s with shards := splitIntoShards s.files SHARD_COUNT }

/-- Embeds the `FileList` constructor: store the lists and rebuild the shards. -/
def mkFileList (files : List File) (clusters : List ClusterEntity) : FileListState :=
  notifyUpdateShards { files := files, clusters := clusters, shards := [] }

/-- Embeds the `files` property setter, which rebuilds the shard partition. -/
def setFiles (s : FileListState) (files : List File) : FileListState :=
  notifyUpdateShards { s with files := files }

/-- Embeds `FileList.availableInCluster`. -/
def availableInCluster (file : File) (cluster : ClusterEntity) : Bool :=
  if !(truthy file.url) && cluster.isProxyCluster then false
  else decide (getShardIndex file.path SHARD_COUNT ≤ cluster.shards)

/-- Embeds `FileList.getAvailableClusters`; `file = none` models the `null`
    default, `clusters = none` the `undefined` default (fall back to `_clusters`). -/
def getAvailableClusters (s : FileListState) (file : Option File)
    (clusters : Option (List ClusterEntity)) : List ClusterEntity :=
  let values := (clusters.getD s.clusters).filter (fun c => c.isOnline && !c.isBanned)
  match file with
  | none => values
  | some f => values.filter (fun c => availableInCluster f c)

/-- Embeds `FileList.getAvailableFiles`:
    `_shards.filter((_, index) => cluster.shards >= index).flat()
        .filter(f => f.url || !cluster.isProxyCluster)`. -/
def getAvailableFiles (s : FileListState) (cluster : ClusterEntity) : List File :=
  ((s.shards.enum.filter (fun p => decide (cluster.shards ≥ p.1))).map
      (fun p => p.2)).flatten.filter
    (fun f => truthy f.url || !cluster.isProxyCluster)

/-- The `"path" | "hash"` argument of `getFiles`/`getFile`. -/
inductive LookupType | path | hash
deriving DecidableEq

/-- The `type === "path"` branch of `FileList.getFiles`: locate the shard of
    `value` and keep the records of that bucket whose path equals `value`. -/
def getFilesByPath (s : FileListState) (value : String) : List File :=
  let index := getShardIndex value SHARD_COUNT
  (s.shards.getD index []).filter (fun f => f.path == value)

/-- Embeds `FileList.getFiles`. The `"hash"` branch re-enters the `"path"`
    branch at `this._files.find(file => file.hash === value)?.path || ""`. -/
def getFiles (s : FileListState) (type : LookupType) (value : String) : List File :=
  match type with
  | .path => getFilesByPath s value
  | .hash => getFilesByPath s (((s.files.find? (fun f => f.hash == value)).map File.path).getD "")

/-! ## Random selection (`Utilities.getRandomElement(s)` and routing) -/

/-- Models `Math.floor(Math.random() * len)`: as the random draw ranges over
    `[0, 1)`, the index ranges over `[0, len)` for positive `len` and is `0`
    when `len = 0`; `r` is the arbitrary draw. -/
def randIndex (r len : Nat) : Nat := if len = 0 then 0 else r % len

/-- Embeds `Utilities.getRandomElement`. -/
def getRandomElement (r : Nat) (array : List α) : Option α :=
  if array.length = 0 then none
  else array.get? (randIndex r array.length)

/-- Embeds `FileList.randomAvailableCluster` (the unused `ip` parameter is
    dropped; `|| null` maps `undefined` to `null`, both modelled by `none`). -/
def randomAvailableCluster (s : FileListState) (r : Nat) (file : File)
    (clusters : Option (List ClusterEntity)) : Option ClusterEntity :=
  getRandomElement r (getAvailableClusters s (some file) clusters)

def invalidCountMsg : String :=
  "Count cannot be greater than the number of unique elements in the array when duplicates are not allowed."

/-- The no-duplicates loop of `getRandomElements`: pick index `j` into the
    shrinking `tempArray` copy (the source copies `array` before splicing, so
    the original list is untouched), emit `tempArray.splice(j, 1)[0]`, repeat. -/
def pickNoDup (rand : Nat → Nat) : Nat → Nat → List α → List (Option α)
  | _, 0, _ => []
  | i, count + 1, temp =>
      let j := randIndex (rand i) temp.length
      temp.get? j :: pickNoDup rand (i + 1) count (temp.eraseIdx j)

/-- Embeds `Utilities.getRandomElements`. Entries are `Option α` because
    indexing past the end of a JavaScript array yields `undefined` rather
    than failing; `rand i` is the `i`-th `Math.random()` draw. -/
def getRandomElements (rand : Nat → Nat) (array : List α) (count : Nat)
    (allowDuplicates : Bool) : Except String (List (Option α)) :=
  if allowDuplicates then
    .ok ((List.range count).map (fun i => array.get? (randIndex (rand i) array.length)))
  else if count > array.length then .error invalidCountMsg
  else .ok (pickNoDup rand 0 count array)

/-! ## Supporting lemmas: shard partition -/

theorem getShardIndex_lt (value : String) (totalShards : Nat) (h : 0 < totalShards) :
    getShardIndex value totalShards < totalShards :=
  Nat.mod_lt _ h

theorem splitIntoShards_foldl_length (n : Nat) (objs : List File) :
    ∀ (shards : List (List File)),
      (objs.foldl (fun shards obj =>
          let shardIndex := getShardIndex obj.path n
          shards.set shardIndex (shards.getD shardIndex [] ++ [obj])) shards).length
        = shards.length := by
  induction objs with
  | nil => intro shards; rfl
  | cons obj rest ih =>
    intro shards
    simp only [List.foldl_cons]
    rw [ih]
    simp

theorem splitIntoShards_foldl_getD (n : Nat) (objs : List File) :
    ∀ (shards : List (List File)), shards.length = n → ∀ i, i < n →
      ((objs.foldl (fun shards obj =>
          let shardIndex := getShardIndex obj.path n
          shards.set shardIndex (shards.getD shardIndex [] ++ [obj])) shards).getD i [])
        = shards.getD i [] ++ objs.filter (fun o => getShardIndex o.path n == i) := by
  induction objs with
  | nil => intro shards _ i _; simp
  | cons obj rest ih =>
    intro shards hlen i hi
    simp only [List.foldl_cons, List.filter_cons]
    rw [ih _ (by simpa using hlen) i hi]
    by_cases hij : getShardIndex obj.path n = i
    · have hlt : i < shards.length := hlen ▸ hi
      simp only [hij, beq_self_eq_true, if_pos rfl]
      rw [List.getD_eq_getElem?_getD, List.getElem?_set_self (hij ▸ hlt)]
      simp [List.getD_eq_getElem?_getD, List.append_assoc]
    · have : (getShardIndex obj.path n == i) = false := by simp [hij]
      simp only [this, if_neg]
      rw [List.getD_eq_getElem?_getD, List.getElem?_set_ne hij]
      simp [List.getD_eq_getElem?_getD]

theorem splitIntoShards_length (objs : List File) (n : Nat) :
    (splitIntoShards objs n).length = n := by
  unfold splitIntoShards
  rw [splitIntoShards_foldl_length]
  simp

theorem splitIntoShards_getD (objs : List File) (n i : Nat) (hi : i < n) :
    (splitIntoShards objs n).getD i [] = objs.filter (fun o => getShardIndex o.path n == i) := by
  unfold splitIntoShards
  rw [splitIntoShards_foldl_getD n objs _ (by simp) i hi]
  simp [List.getD_eq_getElem?_getD, List.getElem?_replicate_of_lt hi]

theorem mem_splitIntoShards (objs : List File) (i : Nat) (r : File) :
    r ∈ (splitIntoShards objs SHARD_COUNT).getD i []
      ↔ r ∈ objs ∧ getShardIndex r.path SHARD_COUNT = i := by
  by_cases hi : i < SHARD_COUNT
  · rw [splitIntoShards_getD objs SHARD_COUNT i hi]
    simp [List.mem_filter]
  · constructor
    · intro hmem
      exfalso
      rw [List.getD_eq_getElem?_getD, List.getElem?_eq_none] at hmem
      · simp at hmem
      · rw [splitIntoShards_length]; omega
    · rintro ⟨_, hidx⟩
      exact absurd (hidx ▸ getShardIndex_lt r.path SHARD_COUNT (by decide)) hi

/-! ## Supporting lemmas: availability -/

theorem availableInCluster_eq_true (file : File) (cluster : ClusterEntity) :
    availableInCluster file cluster = true
      ↔ getShardIndex file.path SHARD_COUNT ≤ cluster.shards ∧
        (truthy file.url = true ∨ cluster.isProxyCluster = false) := by
  unfold availableInCluster
  by_cases hu : truthy file.url <;> by_cases hp : cluster.isProxyCluster <;>
    simp [hu, hp]

/-! ## Supporting lemmas: path lookup -/

theorem getFilesByPath_mkFileList (files : List File) (clusters : List ClusterEntity)
    (p : String) :
    getFilesByPath (mkFileList files clusters) p = files.filter (fun f => f.path == p) := by
  unfold getFilesByPath mkFileList notifyUpdateShards
  simp only
  rw [splitIntoShards_getD files SHARD_COUNT _ (getShardIndex_lt _ _ (by decide))]
  rw [List.filter_filter]
  apply List.filter_congr
  intro f _
  by_cases hp : f.path = p
  · simp [hp]
  · simp [hp]

/-! ## Supporting lemmas: random selection -/

theorem getRandomElement_eq_none (r : Nat) (array : List α) :
    getRandomElement r array = none ↔ array = [] := by
  unfold getRandomElement
  by_cases h : array.length = 0
  · simp [h, List.length_eq_zero.mp h]
  · have hlt : randIndex r array.length < array.length := by
      unfold randIndex
      simp only [h, if_neg]
      exact Nat.mod_lt _ (Nat.pos_of_ne_zero h)
    simp only [h, if_neg, List.get?_eq_getElem?]
    rw [List.getElem?_eq_getElem hlt]
    constructor
    · intro hc; cases hc
    · intro hc; subst hc; simp at h

theorem getRandomElement_mem (r : Nat) (array : List α) (x : α)
    (hx : getRandomElement r array = some x) : x ∈ array := by
  unfold getRandomElement at hx
  by_cases h : array.length = 0
  · simp [h] at hx
  · simp only [h, if_neg, List.get?_eq_getElem?] at hx
    exact List.getElem?_mem hx

theorem pickNoDup_length (rand : Nat → Nat) :
    ∀ (count i : Nat) (temp : List α), (pickNoDup rand i count temp).length = count := by
  intro count
  induction count with
  | zero => intro i temp; rfl
  | succ k ih => intro i temp; simp only [pickNoDup, List.length_cons, ih]

theorem pickNoDup_mem (rand : Nat → Nat) :
    ∀ (count i : Nat) (temp : List α), count ≤ temp.length →
      ∀ o ∈ pickNoDup rand i count temp, ∃ x, o = some x ∧ x ∈ temp := by
  intro count
  induction count with
  | zero => intro i temp _ o ho; cases ho
  | succ k ih =>
    intro i temp hle o ho
    have hpos : 0 < temp.length := by omega
    have hj : randIndex (rand i) temp.length < temp.length := by
      unfold randIndex
      simp only [Nat.pos_iff_ne_zero.mp hpos, if_neg]
      · exact Nat.mod_lt _ hpos
    simp only [pickNoDup, List.mem_cons] at ho
    rcases ho with rfl | ho
    · rw [List.get?_eq_getElem?, List.getElem?_eq_getElem hj]
      exact ⟨_, rfl, List.getElem_mem hj⟩
    · have hlen' : k ≤ (temp.eraseIdx (randIndex (rand i) temp.length)).length := by
        rw [List.length_eraseIdx_of_lt hj]; omega
      obtain ⟨x, hox, hxmem⟩ := ih (i + 1) _ hlen' o ho
      exact ⟨x, hox, (List.eraseIdx_sublist _ _).mem hxmem⟩

/-! ## Supporting lemmas: URL-safe base64 -/

theorem b64Char_mem (n : Nat) : b64Char n ∈ b64Alphabet := by
  unfold b64Char
  rw [List.getD_eq_getElem?_getD]
  cases h : b64Alphabet[n]? with
  | none => simp; decide
  | some c => simp [List.getElem?_mem h]

/-- Structure of base64 output: alphabet characters followed by 0–2 `'='` pads. -/
theorem base64Encode_structure :
    ∀ bytes : List Nat, ∃ (core : List Char) (k : Nat),
      base64Encode bytes = core ++ List.replicate k '=' ∧ ∀ c ∈ core, c ∈ b64Alphabet
  | [] => ⟨[], 0, rfl, by intro c hc; cases hc⟩
  | [a] => ⟨[b64Char (a / 4), b64Char (a % 4 * 16)], 2, rfl, by
      intro c hc
      rcases List.mem_pair.mp hc with rfl | rfl <;> exact b64Char_mem _⟩
  | [a, b] => ⟨[b64Char (a / 4), b64Char (a % 4 * 16 + b / 16), b64Char (b % 16 * 4)], 1, rfl, by
      intro c hc
      simp only [List.mem_cons, List.not_mem_nil, or_false] at hc
      rcases hc with rfl | rfl | rfl <;> exact b64Char_mem _⟩
  | a :: b :: c :: rest => by
      obtain ⟨core, k, henc, hmem⟩ := base64Encode_structure rest
      refine ⟨b64Char (a / 4) :: b64Char (a % 4 * 16 + b / 16) :: b64Char (b % 16 * 4 + c / 64) ::
        b64Char (c % 64) :: core, k, ?_, ?_⟩
      · simp only [base64Encode, henc, List.cons_append]
      · intro x hx
        simp only [List.mem_cons] at hx
        rcases hx with rfl | rfl | rfl | rfl | hx
        · exact b64Char_mem _
        · exact b64Char_mem _
        · exact b64Char_mem _
        · exact b64Char_mem _
        · exact hmem x hx

theorem dropWhile_replicate_append (p : Char → Bool) (a : Char) (hp : p a = true) (k : Nat)
    (xs : List Char) : (List.replicate k a ++ xs).dropWhile p = xs.dropWhile p := by
  induction k with
  | zero => rfl
  | succ m ih => simp [List.replicate_succ, List.dropWhile_cons, hp, ih]

theorem dropWhile_eq_self_of_all (p : Char → Bool) (xs : List Char)
    (h : ∀ x ∈ xs, p x = false) : xs.dropWhile p = xs := by
  cases xs with
  | nil => rfl
  | cons x rest => simp [List.dropWhile_cons, h x (List.mem_cons_self x rest)]

theorem stripTrailingEq_append_replicate (xs : List Char) (k : Nat)
    (h : ∀ x ∈ xs, (x == '=') = false) :
    stripTrailingEq (xs ++ List.replicate k '=') = xs := by
  unfold stripTrailingEq
  rw [List.reverse_append, List.reverse_replicate]
  rw [dropWhile_replicate_append _ '=' (by decide) k xs.reverse]
  rw [dropWhile_eq_self_of_all _ _ (by intro x hx; exact h x (List.mem_reverse.mp hx))]
  exact List.reverse_reverse xs

theorem urlSafeChar_safe (c : Char) (hc : c ∈ b64Alphabet) :
    (urlSafeChar c == '+') = false ∧ (urlSafeChar c == '/') = false ∧
    (urlSafeChar c == '=') = false := by
  unfold urlSafeChar
  by_cases h1 : c = '+'
  · simp [h1]
  · by_cases h2 : c = '/'
    · simp [h1, h2]
    · have h3 : c ≠ '=' := by
        intro hc3
        rw [hc3] at hc
        revert hc
        decide
      simp [h1, h2, h3]

/-- Every character of the URL-safe base64 string is neither '+', '/' nor '='. -/
theorem toUrlSafeBase64String_safe (buffer : List Nat) :
    ((toUrlSafeBase64String buffer).data.all
      (fun c => !(c == '+') && !(c == '/') && !(c == '='))) = true := by
  obtain ⟨core, k, henc, hmem⟩ := base64Encode_structure buffer
  unfold toUrlSafeBase64String
  rw [henc, List.map_append, List.map_replicate]
  have hrep : urlSafeChar '=' = '=' := by decide
  rw [hrep]
  rw [stripTrailingEq_append_replicate _ k (by
    intro x hx
    obtain ⟨c, hc, rfl⟩ := List.mem_map.mp hx
    exact (urlSafeChar_safe c (hmem c hc)).2.2)]
  simp only [String.data]
  rw [List.all_eq_true]
  intro x hx
  obtain ⟨c, hc, rfl⟩ := List.mem_map.mp hx
  obtain ⟨h1, h2, h3⟩ := urlSafeChar_safe c (hmem c hc)
  simp [h1, h2, h3]

/-! ## Supporting lemmas: hash lookup -/

theorem getFiles_hash_none (files : List File) (clusters : List ClusterEntity) (h : String)
    (hfind : files.find? (fun f => f.hash == h) = none) :
    getFiles (mkFileList files clusters) .hash h = files.filter (fun f => f.path == "") := by
  unfold getFiles
  simp only [mkFileList, notifyUpdateShards] at hfind ⊢
  rw [hfind]
  exact getFilesByPath_mkFileList files clusters ""

theorem getFiles_hash_some (files : List File) (clusters : List ClusterEntity) (h : String)
    (g : File) (hfind : files.find? (fun f => f.hash == h) = some g) :
    getFiles (mkFileList files clusters) .hash h = files.filter (fun f => f.path == g.path) := by
  unfold getFiles
  simp only [mkFileList, notifyUpdateShards] at hfind ⊢
  rw [hfind]
  exact getFilesByPath_mkFileList files clusters g.path

/-! ## Claims -/

/-- Claim C1 (amended): a cluster is returned by `getAvailableClusters` for a
file exactly when it is in the pool (the explicit one, or the registered one
when the pool is omitted), is online, is not banned, the file's shard index is
at most — not strictly below — the cluster's `shards` value, and the file has
a truthy origin URL or the cluster is not a proxy cluster.  Consequently a
cluster with `shards = 0` serves exactly the files of shard 0, and one with
`shards = SHARD_COUNT` serves every file subject only to the proxy rule. -/
theorem mem_getAvailableClusters (s : FileListState) (f : File)
    (clusters : Option (List ClusterEntity)) (c : ClusterEntity) :
    c ∈ getAvailableClusters s (some f) clusters
      ↔ c ∈ clusters.getD s.clusters ∧ c.isOnline = true ∧ c.isBanned = false ∧
        getShardIndex f.path SHARD_COUNT ≤ c.shards ∧
        (truthy f.url = true ∨ c.isProxyCluster = false) := by
  unfold getAvailableClusters
  simp only [List.mem_filter, availableInCluster_eq_true, Bool.and_eq_true, Bool.not_eq_true']
  tauto

/-- Claim C1 witness: the spec's scenario 9 — an online, unbanned, non-proxy
cluster with `shards = 1000` is eligible for `/files/test.txt`. -/
theorem getAvailableClusters_witness :
    (⟨"c1", 1000, true, false, false⟩ : ClusterEntity) ∈
      getAvailableClusters (mkFileList [] [⟨"c1", 1000, true, false, false⟩])
        (some ⟨"/files/test.txt", "h1", some "http://origin/a"⟩) none :=
  (mem_getAvailableClusters (mkFileList [] [⟨"c1", 1000, true, false, false⟩])
    ⟨"/files/test.txt", "h1", some "http://origin/a"⟩ none
    ⟨"c1", 1000, true, false, false⟩).mpr (by decide)

/-- Claim C1 counterexample: the claim as stated requires
`shardIndex(file.path) < cluster.shardCapacity` and asserts a cluster with
capacity 0 is eligible for no file; but an online, unbanned, non-proxy cluster
whose `shards` field is 0 IS returned for a file of shard index 0 (the code
tests `index <= cluster.shards`). -/
theorem getAvailableClusters_zero_shards_counterexample :
    ((⟨"c1", 0, true, false, false⟩ : ClusterEntity) ∈
      getAvailableClusters (mkFileList [] [⟨"c1", 0, true, false, false⟩])
        (some ⟨"/files/1918.txt", "h0", none⟩) none) ∧
    ¬ (getShardIndex "/files/1918.txt" SHARD_COUNT <
        (⟨"c1", 0, true, false, false⟩ : ClusterEntity).shards) := by decide

/-- Claim C2 (amended): a record is in `getAvailableFiles` for a cluster
exactly when it is in the catalog, its shard index is at most — not strictly
below — the cluster's `shards` value, and it has a truthy origin URL or the
cluster is not a proxy cluster; in particular a non-proxy cluster never has a
record excluded for lacking an origin URL. -/
theorem mem_getAvailableFiles (files : List File) (clusters : List ClusterEntity)
    (cluster : ClusterEntity) (f : File) :
    f ∈ getAvailableFiles (mkFileList files clusters) cluster
      ↔ f ∈ files ∧ getShardIndex f.path SHARD_COUNT ≤ cluster.shards ∧
        (truthy f.url = true ∨ cluster.isProxyCluster = false) := by
  unfold getAvailableFiles mkFileList notifyUpdateShards
  simp only [List.mem_filter, List.mem_flatten, List.mem_map, List.mem_enum_iff_getElem?,
    ge_iff_le, decide_eq_true_eq, Bool.or_eq_true, Bool.not_eq_true']
  constructor
  · rintro ⟨⟨l, ⟨⟨⟨i, b⟩, ⟨hget, hle⟩, rfl⟩, hf⟩⟩, hurl⟩
    have hi : i < SHARD_COUNT := by
      have := List.getElem?_eq_some_iff.mp hget
      obtain ⟨hlt, _⟩ := this
      rwa [splitIntoShards_length] at hlt
    have hb : b = (splitIntoShards files SHARD_COUNT).getD i [] := by
      simp [List.getD_eq_getElem?_getD, hget]
    subst hb
    have := (mem_splitIntoShards files i f).mp hf
    exact ⟨this.1, this.2 ▸ hle, hurl⟩
  · rintro ⟨hmem, hle, hurl⟩
    have hidx : getShardIndex f.path SHARD_COUNT < (splitIntoShards files SHARD_COUNT).length := by
      rw [splitIntoShards_length]; exact getShardIndex_lt _ _ (by decide)
    refine ⟨⟨(splitIntoShards files SHARD_COUNT)[getShardIndex f.path SHARD_COUNT],
      ⟨⟨(getShardIndex f.path SHARD_COUNT,
          (splitIntoShards files SHARD_COUNT)[getShardIndex f.path SHARD_COUNT]),
        ⟨List.getElem?_eq_getElem hidx, hle⟩, rfl⟩, ?_⟩⟩, hurl⟩
    have hg : (splitIntoShards files SHARD_COUNT)[getShardIndex f.path SHARD_COUNT]
        = (splitIntoShards files SHARD_COUNT).getD (getShardIndex f.path SHARD_COUNT) [] := by
      rw [List.getD_eq_getElem?_getD, List.getElem?_eq_getElem hidx]; rfl
    rw [hg]
    exact (mem_splitIntoShards files _ f).mpr ⟨hmem, rfl⟩

/-- Claim C2 witness: a record of shard 877 is listed for a non-proxy cluster
with `shards = 1000` even without an origin URL. -/
theorem getAvailableFiles_witness :
    (⟨"/files/test.txt", "h1", none⟩ : File) ∈
      getAvailableFiles (mkFileList [⟨"/files/test.txt", "h1", none⟩] [])
        ⟨"c1", 1000, true, false, false⟩ :=
  (mem_getAvailableFiles [⟨"/files/test.txt", "h1", none⟩] []
    ⟨"c1", 1000, true, false, false⟩ ⟨"/files/test.txt", "h1", none⟩).mpr (by decide)

/-- Claim C2 counterexample: the claim as stated keeps exactly the records with
`shardIndex(path) < cluster.shardCapacity`; but a record of shard index 0 is
returned for a non-proxy cluster whose `shards` field is 0 (the code keeps
buckets with `cluster.shards >= index`). -/
theorem getAvailableFiles_zero_shards_counterexample :
    ((⟨"/files/1918.txt", "h0", none⟩ : File) ∈
      getAvailableFiles (mkFileList [⟨"/files/1918.txt", "h0", none⟩] [])
        ⟨"c1", 0, true, false, false⟩) ∧
    ¬ (getShardIndex "/files/1918.txt" SHARD_COUNT <
        (⟨"c1", 0, true, false, false⟩ : ClusterEntity).shards) := by decide

/-- Claim C3: the shard partition has exactly `SHARD_COUNT` buckets; a record
is in bucket `i` exactly when it is in the input and its path's shard index is
`i` (a pure function of the path); buckets are pairwise disjoint; their union
is exactly the input record set; and rebuilding from the same file set twice
yields the identical state. -/
theorem splitIntoShards_partition (files : List File) (clusters : List ClusterEntity) :
    (splitIntoShards files SHARD_COUNT).length = SHARD_COUNT ∧
    (∀ i r, r ∈ (splitIntoShards files SHARD_COUNT).getD i []
        ↔ r ∈ files ∧ getShardIndex r.path SHARD_COUNT = i) ∧
    (∀ i j r, i ≠ j → r ∈ (splitIntoShards files SHARD_COUNT).getD i []
        → r ∉ (splitIntoShards files SHARD_COUNT).getD j []) ∧
    (∀ r, r ∈ files ↔ ∃ i, i < SHARD_COUNT ∧ r ∈ (splitIntoShards files SHARD_COUNT).getD i []) ∧
    setFiles (setFiles (mkFileList files clusters) files) files
      = setFiles (mkFileList files clusters) files := by
  refine ⟨splitIntoShards_length files SHARD_COUNT, mem_splitIntoShards files, ?_, ?_, rfl⟩
  · intro i j r hij hi hj
    exact hij ((((mem_splitIntoShards files i r).mp hi).2).symm.trans
      (((mem_splitIntoShards files j r).mp hj).2))
  · intro r
    constructor
    · intro hr
      exact ⟨getShardIndex r.path SHARD_COUNT, getShardIndex_lt _ _ (by decide),
        (mem_splitIntoShards files _ r).mpr ⟨hr, rfl⟩⟩
    · rintro ⟨i, _, hi⟩
      exact ((mem_splitIntoShards files i r).mp hi).1

/-- Claim C3 witness: `/files/test.txt` lands in bucket 877 of its own
singleton catalog. -/
theorem splitIntoShards_partition_witness :
    (⟨"/files/test.txt", "h1", none⟩ : File)
      ∈ (splitIntoShards [⟨"/files/test.txt", "h1", none⟩] SHARD_COUNT).getD 877 [] :=
  ((splitIntoShards_partition [⟨"/files/test.txt", "h1", none⟩] []).2.1 877
    ⟨"/files/test.txt", "h1", none⟩).mpr (by decide)

/-- Claim C4: for positive `totalShards`, `getShardIndex` is in
`[0, totalShards)`, equals the absolute value of the signed CRC-32 of the
UTF-8 bytes of the path reduced modulo `totalShards`, and is deterministic. -/
theorem getShardIndex_spec (p : String) (N : Nat) (h : 0 < N) :
    getShardIndex p N < N ∧
    getShardIndex p N = (crc32Signed (strBytes p)).natAbs % N ∧
    ∀ q M, q = p → M = N → getShardIndex q M = getShardIndex p N := by
  refine ⟨Nat.mod_lt _ h, rfl, ?_⟩
  intro q M hq hM
  rw [hq, hM]

/-- Claim C4 witness: the pinned vector `shardIndex("/files/test.txt", 1000)`
evaluates to 877 (CRC-32 of the path is 1776359877), inside `[0, 1000)`. -/
theorem getShardIndex_spec_witness :
    0 < 1000 ∧ getShardIndex "/files/test.txt" 1000 < 1000 ∧
    getShardIndex "/files/test.txt" 1000 = 877 :=
  ⟨by decide, (getShardIndex_spec "/files/test.txt" 1000 (by decide)).1, by decide⟩

/-- Claim C5: `getSign` returns `"s=<sig>&e=<exp>"` where `exp` is the base-36
encoding of now plus five minutes and `sig` is the URL-safe base64 (with '+'
and '/' replaced and trailing '=' removed) of the SHA-1 digest of
`secret ++ path ++ exp`; and `sig` indeed contains no '+', '/' or '='. -/
theorem getSign_spec (now : Nat) (path secret : String) :
    getSign now path secret =
      "s=" ++ toUrlSafeBase64String
          (sha1 (strBytes (secret ++ path ++ toBase36 (now + 5 * 60 * 1000))))
        ++ "&e=" ++ toBase36 (now + 5 * 60 * 1000) ∧
    ((toUrlSafeBase64String
        (sha1 (strBytes (secret ++ path ++ toBase36 (now + 5 * 60 * 1000))))).data.all
      (fun c => !(c == '+') && !(c == '/') && !(c == '='))) = true :=
  ⟨rfl, toUrlSafeBase64String_safe _⟩

/-- Claim C5 witness: the full construction at `now = 1700000000000`,
`path = "/p"`, `secret = "s"` matches the externally computed vector. -/
theorem getSign_spec_witness :
    getSign 1700000000000 "/p" "s" = "s=htWCcFjlAyjR1X3XG6gsE2J73ok&e=loywaajk" :=
  (getSign_spec 1700000000000 "/p" "s").1.trans (by decide)

/-- Claim C6: `getFileInfoSync` either returns the SHA-256 hex digest, byte
size and modification time of the file, or, on any I/O failure, exactly the
sentinel record whose hash is forty '0' characters with size 0 and
lastModified 0 — it never propagates the failure. -/
theorem getFileInfoSync_spec (fs : String → Option FSFile) (p : String) :
    (∃ f, fs p = some f ∧ getFileInfoSync fs p =
        { hash := bytesToHex (sha256 f.content), size := f.content.length,
          lastModified := f.mtimeMs }) ∨
    (fs p = none ∧ getFileInfoSync fs p =
        { hash := String.mk (List.replicate 40 '0'), size := 0, lastModified := 0 }) := by
  cases h : fs p with
  | some f =>
    left
    exact ⟨f, rfl, by unfold getFileInfoSync; rw [h]⟩
  | none =>
    right
    refine ⟨rfl, ?_⟩
    unfold getFileInfoSync
    rw [h]
    decide

/-- Claim C7: with duplicates disallowed, `getRandomElements` fails fast with
the InvalidArgument error — and no partial result — whenever `count` exceeds
the source length, and otherwise succeeds with exactly `count` entries, each a
real element of the source; the source list itself is copied before any
splice, so it is never modified. -/
theorem getRandomElements_noDup_spec {α : Type} (rand : Nat → Nat) (array : List α)
    (count : Nat) :
    (count > array.length →
      getRandomElements rand array count false = Except.error invalidCountMsg) ∧
    (count ≤ array.length →
      ∃ l, getRandomElements rand array count false = Except.ok l ∧
        l.length = count ∧ ∀ o ∈ l, ∃ x, o = some x ∧ x ∈ array) := by
  constructor
  · intro h
    unfold getRandomElements
    simp [h]
  · intro h
    refine ⟨pickNoDup rand 0 count array, ?_, pickNoDup_length rand count 0 array,
      pickNoDup_mem rand count 0 array h⟩
    unfold getRandomElements
    simp [Nat.not_lt.mpr h]

/-- Claim C7 witness: asking 3 unique picks from a 2-element list errors;
asking 2 succeeds with 2 entries drawn from the list. -/
theorem getRandomElements_noDup_witness :
    getRandomElements (fun _ => 0) [1, 2] 3 false = Except.error invalidCountMsg ∧
    (∃ l, getRandomElements (fun _ => 0) [1, 2] 2 false = Except.ok l ∧
      l.length = 2 ∧ ∀ o ∈ l, ∃ x, o = some x ∧ x ∈ [1, 2]) :=
  ⟨(getRandomElements_noDup_spec (fun _ => 0) [1, 2] 3).1 (by decide),
   (getRandomElements_noDup_spec (fun _ => 0) [1, 2] 2).2 (by decide)⟩

/-- Claim C8: `randomAvailableCluster` returns `none` exactly when the
eligible set is empty (no crash on empty input), and any cluster it returns
is a member of the eligible set. -/
theorem randomAvailableCluster_spec (s : FileListState) (r : Nat) (file : File)
    (clusters : Option (List ClusterEntity)) :
    (randomAvailableCluster s r file clusters = none
        ↔ getAvailableClusters s (some file) clusters = []) ∧
    ∀ c, randomAvailableCluster s r file clusters = some c
        → c ∈ getAvailableClusters s (some file) clusters := by
  constructor
  · exact getRandomElement_eq_none r _
  · intro c hc
    exact getRandomElement_mem r _ c hc

/-- Claim C8 witness: with one eligible cluster, routing returns it, and it is
in the eligible set. -/
theorem randomAvailableCluster_witness :
    (⟨"c1", 1000, true, false, false⟩ : ClusterEntity) ∈
      getAvailableClusters (mkFileList [] [⟨"c1", 1000, true, false, false⟩])
        (some ⟨"/files/a.txt", "h1", none⟩) none :=
  (randomAvailableCluster_spec (mkFileList [] [⟨"c1", 1000, true, false, false⟩]) 0
    ⟨"/files/a.txt", "h1", none⟩ none).2 ⟨"c1", 1000, true, false, false⟩ (by decide)

/-- Claim C9 (amended): when no record has hash `h`, `getFiles("hash", h)`
falls back to a path lookup with the empty-string key, returning every record
whose path is `""` — the empty list only when no record has an empty path;
when some record has hash `h`, it returns every record whose path equals the
path of the first such record in catalog order. -/
theorem getFiles_hash_spec (files : List File) (clusters : List ClusterEntity) (h : String) :
    (files.find? (fun f => f.hash == h) = none →
      getFiles (mkFileList files clusters) .hash h = files.filter (fun f => f.path == "")) ∧
    ∀ g, files.find? (fun f => f.hash == h) = some g →
      getFiles (mkFileList files clusters) .hash h
        = files.filter (fun f => f.path == g.path) :=
  ⟨getFiles_hash_none files clusters h, fun g hg => getFiles_hash_some files clusters h g hg⟩

/-- Claim C9 witness: looking up an existing hash returns the records sharing
the first match's path. -/
theorem getFiles_hash_witness :
    getFiles (mkFileList [(⟨"/files/a.txt", "h1", none⟩ : File)] []) .hash "h1"
      = List.filter (fun f => f.path == (⟨"/files/a.txt", "h1", none⟩ : File).path)
          [(⟨"/files/a.txt", "h1", none⟩ : File)] :=
  (getFiles_hash_spec [⟨"/files/a.txt", "h1", none⟩] [] "h1").2
    ⟨"/files/a.txt", "h1", none⟩ (by decide)

/-- Claim C9 counterexample: the catalog holds one record with path `""` and
hash `"h0"`; no record has hash `"h1"`, yet `getFiles("hash", "h1")` is not
empty — the fallback `?.path || ""` looks up path `""` and returns that
record. -/
theorem getFiles_hash_counterexample :
    List.find? (fun f => f.hash == "h1") [(⟨"", "h0", none⟩ : File)] = none ∧
    getFiles (mkFileList [(⟨"", "h0", none⟩ : File)] []) .hash "h1" ≠ [] := by decide

/-- Claim C10: with duplicates allowed, `getRandomElements` on an empty source
never errors: it returns exactly `count` entries, each the `undefined`
placeholder (`none`) produced by indexing into the empty list. -/
theorem getRandomElements_empty_dup_spec {α : Type} (rand : Nat → Nat) (count : Nat) :
    getRandomElements rand ([] : List α) count true
      = Except.ok (List.replicate count none) ∧
    (List.replicate count (none : Option α)).length = count := by
  constructor
  · have h1 : getRandomElements rand ([] : List α) count true
        = .ok ((List.range count).map (fun _ => (none : Option α))) := rfl
    rw [h1, List.map_const', List.length_range]
  · exact List.length_replicate count none
